import Mathlib

/-!
Verification of the CareerVine calendar subsystem: the calendar event cache,
the event mutation proxy routes, the availability calculator, the sync
operation, and the Gmail template endpoint. Times are modelled as minutes
(`Nat`); busy intervals are half-open `[s, e)` ranges.
-/

namespace CareerVine

/-- Insertion of an element into a list sorted by a `Nat` key
(used to model SQL `ORDER BY key ASC`). -/
def insertByKey {α : Type} (k : α → Nat) (x : α) : List α → List α
  | [] => [x]
  | y :: ys => if k x ≤ k y then x :: y :: ys else y :: insertByKey k x ys

/-- Insertion sort by a `Nat` key, modelling `ORDER BY key ASC`. -/
def sortByKey {α : Type} (k : α → Nat) : List α → List α
  | [] => []
  | x :: xs => insertByKey k x (sortByKey k xs)

/-- A half-open time interval `[s, e)` in minutes. -/
structure Ivl where
  s : Nat
  e : Nat
deriving DecidableEq, Repr

/-- Two half-open intervals overlap when they share at least one point. -/
def Ivl.overlaps (a b : Ivl) : Prop := a.s < b.e ∧ b.s < a.e

instance (a b : Ivl) : Decidable (Ivl.overlaps a b) := by
  unfold Ivl.overlaps; infer_instance

/-- Merge pass over a list of intervals already sorted by start: absorb the
next interval into the current one whenever it starts no later than the
current end. -/
def mergeGo (cur : Ivl) : List Ivl → List Ivl
  | [] => [cur]
  | r :: rest =>
      if r.s ≤ cur.e then mergeGo ⟨cur.s, max cur.e r.e⟩ rest
      else cur :: mergeGo r rest

/-- Modelled from the spec: the availability calculator's merging of
overlapping busy intervals before subtraction (the availability route
itself is not part of the sources; spec section 4.2). Sort by start, then
coalesce overlapping intervals. -/
def mergeIntervals (l : List Ivl) : List Ivl :=
  match sortByKey Ivl.s l with
  | [] => []
  | h :: t => mergeGo h t

/-- Parts of window `w` not covered by busy interval `b`. -/
def subtractOne (w b : Ivl) : List Ivl :=
  (if w.s < min w.e b.s then [⟨w.s, min w.e b.s⟩] else []) ++
  (if max w.s b.e < w.e then [⟨max w.s b.e, w.e⟩] else [])

/-- Modelled from the spec: subtract every busy interval from the list of
free windows (spec section 4.2). -/
def subtractAll (free : List Ivl) (busy : List Ivl) : List Ivl :=
  busy.foldl (fun acc b => acc.flatMap (fun w => subtractOne w b)) free

/-- Modelled from the spec: walk a free window in `dur`-sized increments,
emitting a slot start only when the full increment fits (spec section 4.2).
`fuel` bounds the recursion; it is instantiated with the window width. -/
def walkSlots (dur : Nat) : Nat → Nat → Nat → List Nat
  | 0, _, _ => []
  | fuel + 1, t, e =>
      if 0 < dur ∧ t + dur ≤ e then t :: walkSlots dur fuel (t + dur) e
      else []

/-- Slot starts emitted inside one free window. -/
def slotsOfFree (dur : Nat) (w : Ivl) : List Nat :=
  walkSlots dur (w.e - w.s) w.s w.e

/-- Parameters of one availability request: working window, slot duration
and buffers, all in minutes. -/
structure AvailParams where
  windowStart : Nat
  windowEnd : Nat
  duration : Nat
  bufferBefore : Nat
  bufferAfter : Nat

/-- Modelled from the spec: a busy interval expanded by the buffers
(spec section 4.2). `Nat` subtraction clamps the start at zero. -/
def expand (p : AvailParams) (b : Ivl) : Ivl :=
  ⟨b.s - p.bufferBefore, b.e + p.bufferAfter⟩

/-- Modelled from the spec: free slot starts for one day — expand the busy
intervals by the buffers, merge them, subtract from the working window and
walk the remaining free time (spec section 4.2). -/
def daySlots (p : AvailParams) (busy : List Ivl) : List Nat :=
  let merged := mergeIntervals (busy.map (expand p))
  let free := subtractAll [⟨p.windowStart, p.windowEnd⟩] merged
  free.flatMap (slotsOfFree p.duration)

/-- One day entry of the availability output: a day label and its slots. -/
structure DayEntry where
  label : Nat
  slots : List Nat
deriving DecidableEq, Repr

/-- Modelled from the spec: the availability endpoint maps every requested
day to an entry; a day with zero free slots yields an empty entry rather
than an error (spec section 4.2). -/
def computeAvailability (p : AvailParams) (days : List (Nat × List Ivl)) :
    Except String (List DayEntry) :=
  Except.ok (days.map (fun db => ⟨db.1, daySlots p db.2⟩))

/-- A row of the `calendar_events` cache table, with the columns the claims
touch (times in minutes). Identity is the pair `(user_id, google_event_id)`. -/
structure CachedEvent where
  user_id : String
  google_event_id : String
  title : Option String
  description : Option String
  start_at : Nat
  end_at : Nat
  all_day : Bool
  is_private : Bool
deriving DecidableEq, Repr

/-- List-view heading of an event in the calendar page: a private event is
rendered as the placeholder "Private event", others as their title or
"Untitled" (`src/careervine/src/app/calendar/page.tsx`, list view). -/
def listTitle (ev : CachedEvent) : String :=
  if ev.is_private then "Private event" else ev.title.getD "Untitled"

/-- Description shown in the list view: suppressed entirely for private
events (`page.tsx`, list view renders the description only in the
non-private branch). -/
def listDescription (ev : CachedEvent) : Option String :=
  if ev.is_private then none else ev.description

/-- Label of an event block in the week grid: "Busy" for private events
(`page.tsx`, week grid view). -/
def weekGridLabel (ev : CachedEvent) : String :=
  if ev.is_private then "Busy" else ev.title.getD "Untitled"

/-- Tooltip of an event block in the week grid (`page.tsx`, `title`
attribute of the event block). -/
def weekGridTooltip (ev : CachedEvent) : String :=
  if ev.is_private then "Private event" else ev.title.getD "Untitled"

/-- Label of an all-day chip in the week grid: "Busy" for private events
(`page.tsx`, all-day row). -/
def allDayLabel (ev : CachedEvent) : String :=
  if ev.is_private then "Busy" else ev.title.getD "Untitled"

/-- An event as delivered by the remote calendar API. -/
structure RemoteEvent where
  id : String
  title : String
  description : String
  start_at : Nat
  end_at : Nat
  isPrivate : Bool
deriving DecidableEq, Repr

/-- Modelled from the spec: the sync operation stores a private remote event
with its title and description cleared, marking it only by the boolean flag
(spec section 4.1; the sync route itself is not part of the sources). -/
def cacheRowOfRemote (uid : String) (r : RemoteEvent) : CachedEvent :=
  { user_id := uid
    google_event_id := r.id
    title := if r.isPrivate then none else some r.title
    description := if r.isPrivate then none else some r.description
    start_at := r.start_at
    end_at := r.end_at
    all_day := false
    is_private := r.isPrivate }

/-- Upsert of a cache row keyed by `(user_id, google_event_id)`. -/
def upsertRow (db : List CachedEvent) (row : CachedEvent) : List CachedEvent :=
  if db.any (fun r => r.user_id == row.user_id && r.google_event_id == row.google_event_id) then
    db.map (fun r =>
      if r.user_id == row.user_id && r.google_event_id == row.google_event_id then row else r)
  else db ++ [row]

/-- Modelled from the spec: reconcile the fetched remote events into the
cache by upserting each one (spec section 4.1). -/
def reconcile (uid : String) (db : List CachedEvent) (remote : List RemoteEvent) :
    List CachedEvent :=
  remote.foldl (fun acc r => upsertRow acc (cacheRowOfRemote uid r)) db

/-- Response of a route handler: HTTP status, success flag of the JSON body,
and the error message of the body when present. -/
structure HandlerResponse where
  status : Nat
  success : Bool
  error : Option String
deriving DecidableEq, Repr

/-- Per-user sync state: the recorded last-sync timestamp and the cache. -/
structure SyncState where
  lastSyncedAt : Option Nat
  cache : List CachedEvent
deriving DecidableEq, Repr

/-- Modelled from the spec: POST /api/calendar/sync — reject with 429 when
invoked within the cooldown window after the recorded last sync, otherwise
reconcile the remote events into the cache and record the sync timestamp
(spec sections 4.1 and 6; the sync route itself is not part of the
sources). -/
def syncHandler (cooldown now : Nat) (uid : String) (st : SyncState)
    (remote : List RemoteEvent) : HandlerResponse × SyncState :=
  match st.lastSyncedAt with
  | some t =>
      if now - t < cooldown then (⟨429, false, some "Rate limited"⟩, st)
      else (⟨200, true, none⟩, ⟨some now, reconcile uid st.cache remote⟩)
  | none => (⟨200, true, none⟩, ⟨some now, reconcile uid st.cache remote⟩)

/-- Body of POST /api/calendar/create-event (fields the claims touch).
Datetimes are modelled as minutes. -/
structure CreateBody where
  summary : Option String
  description : Option String
  startTime : Option Nat
  endTime : Option Nat
deriving DecidableEq, Repr

/-- Successful result of the remote `createCalendarEvent` call. -/
structure CreateOk where
  googleEventId : String
deriving DecidableEq, Repr

/-- The falsiness check `!summary || !startTime || !endTime` of the
create-event route: the summary is missing when absent or empty. -/
def missingFields (b : CreateBody) : Bool :=
  (b.summary.getD "" == "") || b.startTime.isNone || b.endTime.isNone

/-- POST /api/calendar/create-event
(`src/careervine/src/app/api/calendar/create-event/route.ts`): 401 when
unauthenticated, 400 when a required field is missing, then the remote
create; a remote failure is caught and returned as a 500 carrying the
message, with the cache untouched. After remote success the row is
inserted into the cache; a failing cache write is only logged and the
response still reports success. -/
def createEventHandler (auth : Option String) (body : CreateBody)
    (remote : Except String CreateOk) (cacheWriteFails : Bool)
    (db : List CachedEvent) : HandlerResponse × List CachedEvent :=
  match auth with
  | none => (⟨401, false, some "Unauthorized"⟩, db)
  | some uid =>
      if missingFields body then
        (⟨400, false, some "Missing required fields: summary, startTime, endTime"⟩, db)
      else
        match remote with
        | Except.error msg => (⟨500, false, some msg⟩, db)
        | Except.ok r =>
            let row : CachedEvent :=
              { user_id := uid
                google_event_id := r.googleEventId
                title := body.summary
                description := body.description
                start_at := body.startTime.getD 0
                end_at := body.endTime.getD 0
                all_day := false
                is_private := false }
            (⟨200, true, none⟩, if cacheWriteFails then db else db ++ [row])

/-- Body of PATCH /api/calendar/events/[googleEventId]. -/
structure UpdateBody where
  summary : Option String
  description : Option String
  startTime : Option Nat
  endTime : Option Nat
deriving DecidableEq, Repr

/-- The cache update built by the PATCH route: `title` only when the summary
is truthy, `description` whenever it is non-null, times when given. -/
def applyUpdate (b : UpdateBody) (r : CachedEvent) : CachedEvent :=
  { r with
    title := match b.summary with
      | some s => if s == "" then r.title else some s
      | none => r.title
    description := match b.description with
      | some d => some d
      | none => r.description
    start_at := b.startTime.getD r.start_at
    end_at := b.endTime.getD r.end_at }

/-- Cache mutation of the PATCH route: update exactly the rows matching
`.eq("google_event_id", gid).eq("user_id", uid)`. -/
def cacheUpdate (db : List CachedEvent) (uid gid : String)
    (f : CachedEvent → CachedEvent) : List CachedEvent :=
  db.map (fun r => if r.user_id = uid ∧ r.google_event_id = gid then f r else r)

/-- Cache mutation of the DELETE route: remove exactly the rows matching
`.eq("google_event_id", gid).eq("user_id", uid)`. -/
def cacheDelete (db : List CachedEvent) (uid gid : String) : List CachedEvent :=
  db.filter (fun r => !(r.user_id == uid && r.google_event_id == gid))

/-- PATCH /api/calendar/events/[googleEventId]
(`src/careervine/src/app/api/calendar/events/[googleEventId]/route.ts`):
remote update first; a remote failure is caught as a 500 with the cache
untouched; after remote success the cache row is updated (a failing cache
write leaves the cache unchanged and is not reported) and the response is
success. -/
def patchEventHandler (auth : Option String) (gid : String) (body : UpdateBody)
    (remote : Except String Unit) (cacheWriteFails : Bool)
    (db : List CachedEvent) : HandlerResponse × List CachedEvent :=
  match auth with
  | none => (⟨401, false, some "Unauthorized"⟩, db)
  | some uid =>
      match remote with
      | Except.error msg => (⟨500, false, some msg⟩, db)
      | Except.ok _ =>
          (⟨200, true, none⟩,
            if cacheWriteFails then db else cacheUpdate db uid gid (applyUpdate body))

/-- DELETE /api/calendar/events/[googleEventId] (same route file): remote
delete first; a remote failure is caught as a 500 with the cache untouched;
after remote success the cache row is removed (a failing cache write leaves
the cache unchanged) and the response is success. -/
def deleteEventHandler (auth : Option String) (gid : String)
    (remote : Except String Unit) (cacheWriteFails : Bool)
    (db : List CachedEvent) : HandlerResponse × List CachedEvent :=
  match auth with
  | none => (⟨401, false, some "Unauthorized"⟩, db)
  | some uid =>
      match remote with
      | Except.error msg => (⟨500, false, some msg⟩, db)
      | Except.ok _ =>
          (⟨200, true, none⟩,
            if cacheWriteFails then db else cacheDelete db uid gid)

/-- The query of GET /api/calendar/events: rows of the requesting user,
filtered by `start_at >= start` and `start_at <= end` when the bounds are
given, ordered ascending by `start_at`. -/
def eventsInRange (db : List CachedEvent) (uid : String)
    (startParam endParam : Option Nat) : List CachedEvent :=
  sortByKey (fun r => r.start_at)
    (db.filter (fun r =>
      r.user_id == uid &&
      (match startParam with | some a => decide (a ≤ r.start_at) | none => true) &&
      (match endParam with | some b => decide (r.start_at ≤ b) | none => true)))

/-- Response of GET /api/calendar/events. -/
structure EventsResponse where
  status : Nat
  events : List CachedEvent
deriving DecidableEq, Repr

/-- GET /api/calendar/events (in
`src/careervine/src/app/api/calendar/create-event/route.ts` sources): 401
when unauthenticated, otherwise the cached events of the user in range. -/
def getEventsHandler (auth : Option String) (db : List CachedEvent)
    (startParam endParam : Option Nat) : EventsResponse :=
  match auth with
  | none => ⟨401, []⟩
  | some uid => ⟨200, eventsInRange db uid startParam endParam⟩

/-- The time range a cached event blocks. -/
def eventIvl (ev : CachedEvent) : Ivl := ⟨ev.start_at, ev.end_at⟩

/-- Modelled from the spec: availability computed from cached events — only
their time ranges enter the calculation (spec sections 3 and 4.2). -/
def availabilityFromEvents (p : AvailParams) (evs : List CachedEvent) : List Nat :=
  daySlots p (evs.map eventIvl)

/-- A row of the `email_templates` table. -/
structure EmailTemplate where
  id : Nat
  user_id : String
  name : String
  prompt : String
  is_default : Bool
  sort_order : Nat
deriving DecidableEq, Repr

/-- A built-in preset template of the Gmail templates endpoint. -/
structure PresetTemplate where
  name : String
  prompt : String
  sort_order : Nat
deriving DecidableEq, Repr

/-- The six built-in preset templates of GET /api/gmail/templates
(`PRESET_TEMPLATES` in the templates route). -/
def PRESET_TEMPLATES : List PresetTemplate :=
  [ ⟨"Introduction",
     "Write a professional introduction email. Introduce yourself, mention any shared connections or interests, and express interest in connecting.",
     0⟩,
    ⟨"Follow-up after meeting",
     "Write a follow-up email after a recent meeting. Reference specific topics discussed, express appreciation for their time, and suggest next steps.",
     1⟩,
    ⟨"Thank you",
     "Write a thoughtful thank-you email. Be specific about what you\x27re grateful for and mention any impact it had.",
     2⟩,
    ⟨"Networking request",
     "Write an email requesting a networking conversation. Be respectful of their time, mention why you\x27d like to connect, and suggest a brief call or coffee.",
     3⟩,
    ⟨"Informational interview",
     "Write an email requesting an informational interview. Show genuine interest in their career path, mention specific aspects of their work that interest you, and propose a short 20-minute call.",
     4⟩,
    ⟨"Check-in",
     "Write a casual check-in email. Keep it warm and personal, reference your last interaction, and show genuine interest in how they\x27re doing.",
     5⟩ ]

/-- Response of GET /api/gmail/templates. -/
structure TemplatesResponse where
  status : Nat
  templates : List EmailTemplate
  presets : List PresetTemplate
deriving DecidableEq, Repr

/-- GET /api/gmail/templates (templates route): an unauthenticated caller
gets 200 with empty custom templates and the presets; a storage failure is
caught and likewise answered with 200, empty templates and the presets; on
success the user's templates ordered ascending by `sort_order` plus the
presets. -/
def templatesGET (auth : Option String) (db : List EmailTemplate)
    (dbFails : Bool) : TemplatesResponse :=
  match auth with
  | none => ⟨200, [], PRESET_TEMPLATES⟩
  | some uid =>
      if dbFails then ⟨200, [], PRESET_TEMPLATES⟩
      else
        ⟨200, sortByKey (fun t => t.sort_order) (db.filter (fun t => t.user_id == uid)),
          PRESET_TEMPLATES⟩

theorem mem_insertByKey {α : Type} (k : α → Nat) (x a : α) (l : List α) :
    a ∈ insertByKey k x l ↔ a = x ∨ a ∈ l := by
  induction l with
  | nil => simp [insertByKey]
  | cons y ys ih =>
      simp only [insertByKey]
      split
      · simp
      · simp only [List.mem_cons, ih]
        tauto

theorem mem_sortByKey {α : Type} (k : α → Nat) (a : α) (l : List α) :
    a ∈ sortByKey k l ↔ a ∈ l := by
  induction l with
  | nil => simp [sortByKey]
  | cons x xs ih => simp [sortByKey, mem_insertByKey, ih]

theorem sorted_insertByKey {α : Type} (k : α → Nat) (x : α) (l : List α)
    (h : l.Pairwise (fun a b => k a ≤ k b)) :
    (insertByKey k x l).Pairwise (fun a b => k a ≤ k b) := by
  induction l with
  | nil => simp [insertByKey]
  | cons y ys ih =>
      rw [List.pairwise_cons] at h
      simp only [insertByKey]
      split
      · rename_i hxy
        refine List.pairwise_cons.mpr ⟨?_, List.pairwise_cons.mpr ⟨h.1, h.2⟩⟩
        intro b hb
        rcases List.mem_cons.mp hb with rfl | hb
        · exact hxy
        · exact le_trans hxy (h.1 b hb)
      · rename_i hxy
        refine List.pairwise_cons.mpr ⟨?_, ih h.2⟩
        intro b hb
        rcases (mem_insertByKey k x b ys).mp hb with rfl | hb
        · omega
        · exact h.1 b hb

theorem sorted_sortByKey {α : Type} (k : α → Nat) (l : List α) :
    (sortByKey k l).Pairwise (fun a b => k a ≤ k b) := by
  induction l with
  | nil => simp [sortByKey]
  | cons x xs ih => exact sorted_insertByKey k x _ ih

/-- Every member of a pairwise list relates or coincides with every other
member. -/
theorem pairwise_mem_cases {α : Type} {R : α → α → Prop} {l : List α} {a b : α}
    (h : l.Pairwise R) (ha : a ∈ l) (hb : b ∈ l) : a = b ∨ R a b ∨ R b a := by
  induction l with
  | nil => cases ha
  | cons x xs ih =>
      rw [List.pairwise_cons] at h
      rcases List.mem_cons.mp ha with rfl | ha2
      · rcases List.mem_cons.mp hb with rfl | hb2
        · exact Or.inl rfl
        · exact Or.inr (Or.inl (h.1 b hb2))
      · rcases List.mem_cons.mp hb with rfl | hb2
        · exact Or.inr (Or.inr (h.1 a ha2))
        · exact ih h.2 ha2 hb2

theorem mergeGo_start_le {cur : Ivl} {rest : List Ivl}
    (h : (cur :: rest).Pairwise (fun a b => a.s ≤ b.s)) :
    ∀ m ∈ mergeGo cur rest, cur.s ≤ m.s := by
  induction rest generalizing cur with
  | nil => simp [mergeGo]
  | cons r rs ih =>
      rw [List.pairwise_cons] at h
      simp only [mergeGo]
      split
      · intro m hm
        have hpair : (Ivl.mk cur.s (max cur.e r.e) :: rs).Pairwise (fun a b => a.s ≤ b.s) := by
          refine List.pairwise_cons.mpr ⟨?_, (List.pairwise_cons.mp h.2).2⟩
          intro b hb
          exact h.1 b (List.mem_cons_of_mem r hb)
        exact ih hpair m hm
      · intro m hm
        rcases List.mem_cons.mp hm with rfl | hm
        · exact le_refl _
        · exact le_trans (h.1 r (List.mem_cons_self r rs)) (ih h.2 m hm)

theorem mergeGo_cover {cur : Ivl} {rest : List Ivl}
    (h : (cur :: rest).Pairwise (fun a b => a.s ≤ b.s)) :
    ∀ x ∈ cur :: rest, ∃ m ∈ mergeGo cur rest, m.s ≤ x.s ∧ x.e ≤ m.e := by
  induction rest generalizing cur with
  | nil =>
      intro x hx
      rcases List.mem_cons.mp hx with rfl | hx
      · exact ⟨x, by simp [mergeGo], le_refl _, le_refl _⟩
      · cases hx
  | cons r rs ih =>
      rw [List.pairwise_cons] at h
      intro x hx
      simp only [mergeGo]
      split
      · rename_i hrs
        have hcur_r : cur.s ≤ r.s := h.1 r (List.mem_cons_self r rs)
        have hpair : (Ivl.mk cur.s (max cur.e r.e) :: rs).Pairwise (fun a b => a.s ≤ b.s) := by
          refine List.pairwise_cons.mpr ⟨?_, (List.pairwise_cons.mp h.2).2⟩
          intro b hb
          exact h.1 b (List.mem_cons_of_mem r hb)
        rcases List.mem_cons.mp hx with rfl | hx
        · obtain ⟨m, hm, hms, hme⟩ :=
            ih hpair ⟨x.s, max x.e r.e⟩ (List.mem_cons_self _ _)
          exact ⟨m, hm, hms, le_trans (le_max_left _ _) hme⟩
        · rcases List.mem_cons.mp hx with rfl | hx
          · obtain ⟨m, hm, hms, hme⟩ :=
              ih hpair ⟨cur.s, max cur.e x.e⟩ (List.mem_cons_self _ _)
            exact ⟨m, hm, le_trans hms hcur_r, le_trans (le_max_right _ _) hme⟩
          · obtain ⟨m, hm, hms, hme⟩ := ih hpair x (List.mem_cons_of_mem _ hx)
            exact ⟨m, hm, hms, hme⟩
      · rcases List.mem_cons.mp hx with rfl | hx
        · exact ⟨x, List.mem_cons_self _ _, le_refl _, le_refl _⟩
        · obtain ⟨m, hm, hms, hme⟩ := ih h.2 x hx
          exact ⟨m, List.mem_cons_of_mem cur hm, hms, hme⟩

theorem mergeGo_sep {cur : Ivl} {rest : List Ivl}
    (h : (cur :: rest).Pairwise (fun a b => a.s ≤ b.s)) :
    (mergeGo cur rest).Pairwise (fun a b => a.e < b.s) := by
  induction rest generalizing cur with
  | nil => simp [mergeGo]
  | cons r rs ih =>
      rw [List.pairwise_cons] at h
      simp only [mergeGo]
      split
      · rename_i hrs
        have hpair : (Ivl.mk cur.s (max cur.e r.e) :: rs).Pairwise (fun a b => a.s ≤ b.s) := by
          refine List.pairwise_cons.mpr ⟨?_, (List.pairwise_cons.mp h.2).2⟩
          intro b hb
          exact h.1 b (List.mem_cons_of_mem r hb)
        exact ih hpair
      · rename_i hrs
        refine List.pairwise_cons.mpr ⟨?_, ih h.2⟩
        intro m hm
        have := mergeGo_start_le h.2 m hm
        omega

theorem mergeIntervals_cover (l : List Ivl) :
    ∀ x ∈ l, ∃ m ∈ mergeIntervals l, m.s ≤ x.s ∧ x.e ≤ m.e := by
  intro x hx
  have hx' : x ∈ sortByKey Ivl.s l := (mem_sortByKey Ivl.s x l).mpr hx
  have hsorted := sorted_sortByKey Ivl.s l
  unfold mergeIntervals
  cases hs : sortByKey Ivl.s l with
  | nil => rw [hs] at hx'; cases hx'
  | cons h t =>
      rw [hs] at hx' hsorted
      exact mergeGo_cover hsorted x hx'

theorem mergeIntervals_sep (l : List Ivl) :
    (mergeIntervals l).Pairwise (fun a b => a.e < b.s) := by
  have hsorted := sorted_sortByKey Ivl.s l
  unfold mergeIntervals
  cases hs : sortByKey Ivl.s l with
  | nil => simp
  | cons h t =>
      rw [hs] at hsorted
      exact mergeGo_sep hsorted

theorem subtractOne_spec {w b w' : Ivl} (h : w' ∈ subtractOne w b) :
    w.s ≤ w'.s ∧ w'.e ≤ w.e ∧ ¬ Ivl.overlaps w' b := by
  unfold subtractOne at h
  rw [List.mem_append] at h
  rcases h with h | h
  · split at h
    · rw [List.mem_singleton] at h
      subst h
      unfold Ivl.overlaps
      dsimp only
      omega
    · cases h
  · split at h
    · rw [List.mem_singleton] at h
      subst h
      unfold Ivl.overlaps
      dsimp only
      omega
    · cases h

theorem subtractAll_spec {init busy : List Ivl} {w' : Ivl}
    (h : w' ∈ subtractAll init busy) :
    (∃ w ∈ init, w.s ≤ w'.s ∧ w'.e ≤ w.e) ∧ ∀ b ∈ busy, ¬ Ivl.overlaps w' b := by
  induction busy generalizing init with
  | nil =>
      refine ⟨⟨w', h, le_refl _, le_refl _⟩, ?_⟩
      intro b hb
      cases hb
  | cons b bs ih =>
      have hstep : subtractAll init (b :: bs) =
          subtractAll (init.flatMap (fun w => subtractOne w b)) bs := rfl
      rw [hstep] at h
      obtain ⟨⟨w1, hw1, hw1s, hw1e⟩, hbs⟩ := ih h
      rw [List.mem_flatMap] at hw1
      obtain ⟨w0, hw0, hw1sub⟩ := hw1
      obtain ⟨h0s, h0e, h0dis⟩ := subtractOne_spec hw1sub
      refine ⟨⟨w0, hw0, le_trans h0s hw1s, le_trans hw1e h0e⟩, ?_⟩
      intro c hc
      rcases List.mem_cons.mp hc with rfl | hc
      · unfold Ivl.overlaps at h0dis ⊢
        omega
      · exact hbs c hc

theorem walkSlots_mem {dur fuel t e x : Nat} (h : x ∈ walkSlots dur fuel t e) :
    0 < dur ∧ t ≤ x ∧ x + dur ≤ e := by
  induction fuel generalizing t with
  | zero => cases h
  | succ n ih =>
      unfold walkSlots at h
      split at h
      · rename_i hcond
        rcases List.mem_cons.mp h with rfl | h
        · exact ⟨hcond.1, le_refl _, hcond.2⟩
        · have := ih h
          omega
      · cases h

theorem slotsOfFree_mem {dur : Nat} {w : Ivl} {x : Nat} (h : x ∈ slotsOfFree dur w) :
    0 < dur ∧ w.s ≤ x ∧ x + dur ≤ w.e :=
  walkSlots_mem h

/-- Characterization of an emitted slot: it lies inside the working window
and does not overlap any merged busy interval. -/
theorem daySlots_mem {p : AvailParams} {busy : List Ivl} {t : Nat}
    (h : t ∈ daySlots p busy) :
    0 < p.duration ∧ p.windowStart ≤ t ∧ t + p.duration ≤ p.windowEnd ∧
    ∀ m ∈ mergeIntervals (busy.map (expand p)),
      ¬ Ivl.overlaps ⟨t, t + p.duration⟩ m := by
  unfold daySlots at h
  rw [List.mem_flatMap] at h
  obtain ⟨w, hw, ht⟩ := h
  obtain ⟨hdur, hws, hwe⟩ := slotsOfFree_mem ht
  obtain ⟨⟨win, hwin, hwins, hwine⟩, hdis⟩ := subtractAll_spec hw
  rw [List.mem_singleton] at hwin
  subst hwin
  refine ⟨hdur, le_trans hwins hws, le_trans hwe hwine, ?_⟩
  intro m hm
  have hd := hdis m hm
  unfold Ivl.overlaps at hd ⊢
  dsimp only
  omega

/-- Every emitted slot avoids every buffered busy interval. -/
theorem daySlots_avoid_expanded {p : AvailParams} {busy : List Ivl} {b : Ivl} {t : Nat}
    (hb : b ∈ busy) (ht : t ∈ daySlots p busy) :
    ¬ Ivl.overlaps ⟨t, t + p.duration⟩ (expand p b) := by
  obtain ⟨hdur, hws, hwe, hdis⟩ := daySlots_mem ht
  obtain ⟨m, hm, hms, hme⟩ :=
    mergeIntervals_cover (busy.map (expand p)) (expand p b) (List.mem_map_of_mem _ hb)
  have hd := hdis m hm
  unfold Ivl.overlaps at hd ⊢
  dsimp only at hd ⊢
  omega

/-- A day whose working window is fully covered by the buffered busy
intervals yields zero slots. -/
theorem daySlots_nil_of_covered {p : AvailParams} {busy : List Ivl}
    (hcov : ∀ t, p.windowStart ≤ t → t < p.windowEnd →
      ∃ b ∈ busy, (expand p b).s ≤ t ∧ t < (expand p b).e) :
    daySlots p busy = [] := by
  rw [List.eq_nil_iff_forall_not_mem]
  intro t ht
  obtain ⟨hdur, hws, hwe, hdis⟩ := daySlots_mem ht
  obtain ⟨b, hb, hbs, hbe⟩ := hcov t hws (by omega)
  obtain ⟨m, hm, hms, hme⟩ :=
    mergeIntervals_cover (busy.map (expand p)) (expand p b) (List.mem_map_of_mem _ hb)
  have hd := hdis m hm
  unfold Ivl.overlaps at hd
  dsimp only at hd
  omega

/-- C2: in the availability calculator, any two overlapping busy intervals
end up inside one single merged interval before subtraction; in particular
merging [9:00,10:00) and [9:30,10:30) (in minutes: [540,600) and [570,630))
yields the single interval [9:00,10:30) = [540,630). -/
theorem C2_merge_overlapping :
    (∀ (l : List Ivl) (a b : Ivl), a ∈ l → b ∈ l → Ivl.overlaps a b →
      ∃ m ∈ mergeIntervals l, m.s ≤ a.s ∧ a.e ≤ m.e ∧ m.s ≤ b.s ∧ b.e ≤ m.e) ∧
    mergeIntervals [⟨540, 600⟩, ⟨570, 630⟩] = [⟨540, 630⟩] := by
  constructor
  · intro l a b ha hb hov
    obtain ⟨ma, hma, hmas, hmae⟩ := mergeIntervals_cover l a ha
    obtain ⟨mb, hmb, hmbs, hmbe⟩ := mergeIntervals_cover l b hb
    unfold Ivl.overlaps at hov
    rcases pairwise_mem_cases (mergeIntervals_sep l) hma hmb with heq | hsep | hsep
    · subst heq
      exact ⟨ma, hma, hmas, hmae, hmbs, hmbe⟩
    · omega
    · omega
  · decide

/-- C2 witness: the general part applied to the concrete overlapping pair
[540,600) and [570,630). -/
theorem C2_merge_overlapping_witness :
    ∃ m ∈ mergeIntervals [⟨540, 600⟩, ⟨570, 630⟩],
      m.s ≤ 540 ∧ 600 ≤ m.e ∧ m.s ≤ 570 ∧ 630 ≤ m.e :=
  C2_merge_overlapping.1 [⟨540, 600⟩, ⟨570, 630⟩] ⟨540, 600⟩ ⟨570, 630⟩
    (by decide) (by decide) (by decide)

/-- C3: every emitted slot avoids every busy interval expanded by the
buffers; in particular with a 10-minute buffer before and after, the busy
interval [10:00,11:00) = [600,660) is expanded to [9:50,11:10) = [590,670)
and no emitted slot of the 09:00-18:00 window intersects it. -/
theorem C3_buffers :
    (∀ (p : AvailParams) (busy : List Ivl) (b : Ivl) (t : Nat),
      b ∈ busy → t ∈ daySlots p busy →
      ¬ Ivl.overlaps ⟨t, t + p.duration⟩ (expand p b)) ∧
    expand ⟨540, 1080, 30, 10, 10⟩ ⟨600, 660⟩ = ⟨590, 670⟩ ∧
    (∀ t ∈ daySlots ⟨540, 1080, 30, 10, 10⟩ [⟨600, 660⟩],
      ¬ Ivl.overlaps ⟨t, t + 30⟩ ⟨590, 670⟩) := by
  refine ⟨?_, by decide, by decide⟩
  intro p busy b t hb ht
  exact daySlots_avoid_expanded hb ht

/-- C3 witness: the general part applied to the concrete slot 540 of the
buffered day. -/
theorem C3_buffers_witness :
    ¬ Ivl.overlaps ⟨540, 540 + 30⟩ (expand ⟨540, 1080, 30, 10, 10⟩ ⟨600, 660⟩) :=
  C3_buffers.1 ⟨540, 1080, 30, 10, 10⟩ [⟨600, 660⟩] ⟨600, 660⟩ 540
    (by decide) (by decide)

/-- C4: a day whose working window is fully covered by the buffered, merged
busy intervals yields zero slots, and such a day still produces an (empty)
entry in the availability output rather than an error; in particular a
fully busy 09:00-18:00 day yields zero slots. -/
theorem C4_fully_busy_day :
    ∀ (p : AvailParams) (days : List (Nat × List Ivl)) (d : Nat) (busy : List Ivl),
      (d, busy) ∈ days →
      (∀ t, p.windowStart ≤ t → t < p.windowEnd →
        ∃ b ∈ busy, (expand p b).s ≤ t ∧ t < (expand p b).e) →
      daySlots p busy = [] ∧
      ∃ entries, computeAvailability p days = Except.ok entries ∧
        (⟨d, []⟩ : DayEntry) ∈ entries := by
  intro p days d busy hmem hcov
  have hnil : daySlots p busy = [] := daySlots_nil_of_covered hcov
  refine ⟨hnil, _, rfl, ?_⟩
  have h2 : (⟨d, daySlots p busy⟩ : DayEntry) ∈
      days.map (fun db => (⟨db.1, daySlots p db.2⟩ : DayEntry)) :=
    List.mem_map_of_mem _ hmem
  rw [hnil] at h2
  exact h2

/-- C4 witness: working hours 09:00-18:00 = [540,1080) fully covered by one
busy interval yields zero slots and an empty entry. -/
theorem C4_fully_busy_day_witness :
    daySlots ⟨540, 1080, 30, 0, 0⟩ [⟨540, 1080⟩] = [] ∧
    ∃ entries,
      computeAvailability ⟨540, 1080, 30, 0, 0⟩ [(0, [⟨540, 1080⟩])] =
        Except.ok entries ∧ (⟨0, []⟩ : DayEntry) ∈ entries :=
  C4_fully_busy_day ⟨540, 1080, 30, 0, 0⟩ [(0, [⟨540, 1080⟩])] 0 [⟨540, 1080⟩]
    (by decide)
    (fun t h1 h2 => ⟨⟨540, 1080⟩, by decide, by simpa [expand] using h1,
      by simpa [expand] using h2⟩)

/-- C1: a private event is rendered only as "Busy" or the private-event
placeholder in every view of the event list, those renderings (and the
suppressed description) do not depend on the stored title or description,
the sync operation stores a private remote event with title and description
cleared, and the availability output is independent of every event's title
and description. -/
theorem C1_private_event_masking :
    (∀ ev : CachedEvent, ev.is_private = true →
      listTitle ev = "Private event" ∧ listDescription ev = none ∧
      weekGridLabel ev = "Busy" ∧ weekGridTooltip ev = "Private event" ∧
      allDayLabel ev = "Busy" ∧
      (∀ t d, listTitle { ev with title := t, description := d } = "Private event" ∧
        listDescription { ev with title := t, description := d } = none ∧
        weekGridLabel { ev with title := t, description := d } = "Busy" ∧
        allDayLabel { ev with title := t, description := d } = "Busy")) ∧
    (∀ (uid : String) (r : RemoteEvent), r.isPrivate = true →
      (cacheRowOfRemote uid r).title = none ∧
      (cacheRowOfRemote uid r).description = none) ∧
    (∀ (p : AvailParams) (evs : List CachedEvent)
        (f g : CachedEvent → Option String),
      availabilityFromEvents p
        (evs.map (fun ev => { ev with title := f ev, description := g ev })) =
      availabilityFromEvents p evs) := by
  refine ⟨?_, ?_, ?_⟩
  · intro ev h
    refine ⟨?_, ?_, ?_, ?_, ?_, ?_⟩ <;>
      simp [listTitle, listDescription, weekGridLabel, weekGridTooltip, allDayLabel, h]
  · intro uid r h
    simp [cacheRowOfRemote, h]
  · intro p evs f g
    unfold availabilityFromEvents
    rw [List.map_map]
    rfl

/-- C1 witness: a concrete private event with a stored title and
description is rendered as the placeholders and masked everywhere. -/
theorem C1_private_event_masking_witness :
    listTitle ⟨"u1", "g1", some "Secret standup", some "Do not show", 540, 600, false, true⟩ =
      "Private event" ∧
    weekGridLabel ⟨"u1", "g1", some "Secret standup", some "Do not show", 540, 600, false, true⟩ =
      "Busy" ∧
    listDescription ⟨"u1", "g1", some "Secret standup", some "Do not show", 540, 600, false, true⟩ =
      none := by
  obtain ⟨h1, h2, h3, _, _, _⟩ :=
    C1_private_event_masking.1
      ⟨"u1", "g1", some "Secret standup", some "Do not show", 540, 600, false, true⟩ rfl
  exact ⟨h1, h3, h2⟩

/-- C5: a sync invoked within the cooldown window after a successful sync
is rejected with HTTP 429 and performs no sync — the state (cache and
last-sync timestamp) is unchanged. -/
theorem C5_sync_cooldown :
    ∀ (cooldown t now : Nat) (uid : String) (st : SyncState)
      (r1 r2 : List RemoteEvent),
      (syncHandler cooldown t uid st r1).1.status = 200 →
      now - t < cooldown →
      (syncHandler cooldown now uid (syncHandler cooldown t uid st r1).2 r2).1.status = 429 ∧
      (syncHandler cooldown now uid (syncHandler cooldown t uid st r1).2 r2).2 =
        (syncHandler cooldown t uid st r1).2 := by
  intro cooldown t now uid st r1 r2 h1 h2
  cases hls : st.lastSyncedAt with
  | none =>
      simp only [syncHandler, hls] at h1 ⊢
      simp [h2]
  | some t0 =>
      simp only [syncHandler, hls] at h1 ⊢
      by_cases hc : t - t0 < cooldown
      · simp [hc] at h1
      · simp only [hc, if_false] at h1 ⊢
        simp [h2]

/-- C5 witness: with a 300-minute cooldown, a first successful sync at time
1000 followed by a second call at time 1100 yields 429 and an unchanged
state. -/
theorem C5_sync_cooldown_witness :
    (syncHandler 300 1100 "u" (syncHandler 300 1000 "u" ⟨none, []⟩ []).2 []).1.status = 429 ∧
    (syncHandler 300 1100 "u" (syncHandler 300 1000 "u" ⟨none, []⟩ []).2 []).2 =
      (syncHandler 300 1000 "u" ⟨none, []⟩ []).2 :=
  C5_sync_cooldown 300 1000 1100 "u" ⟨none, []⟩ [] [] (by decide) (by decide)

/-- C6: in every mutation route the cache is written only after the remote
call succeeds — a remote failure yields a 500 response with the cache
unchanged, and after remote success a failing cache write leaves the cache
unchanged while the response still reports success. -/
theorem C6_mutation_proxy :
    (∀ (uid : String) (cb : CreateBody) (db : List CachedEvent) (msg : String)
        (cfail : Bool), missingFields cb = false →
      createEventHandler (some uid) cb (Except.error msg) cfail db =
        (⟨500, false, some msg⟩, db)) ∧
    (∀ (uid : String) (cb : CreateBody) (db : List CachedEvent) (r : CreateOk)
        (cfail : Bool), missingFields cb = false →
      (createEventHandler (some uid) cb (Except.ok r) cfail db).1 = ⟨200, true, none⟩ ∧
      (createEventHandler (some uid) cb (Except.ok r) true db).2 = db) ∧
    (∀ (uid gid : String) (ub : UpdateBody) (db : List CachedEvent) (msg : String)
        (cfail : Bool),
      patchEventHandler (some uid) gid ub (Except.error msg) cfail db =
        (⟨500, false, some msg⟩, db)) ∧
    (∀ (uid gid : String) (ub : UpdateBody) (db : List CachedEvent) (cfail : Bool),
      (patchEventHandler (some uid) gid ub (Except.ok ()) cfail db).1 = ⟨200, true, none⟩ ∧
      (patchEventHandler (some uid) gid ub (Except.ok ()) true db).2 = db) ∧
    (∀ (uid gid : String) (db : List CachedEvent) (msg : String) (cfail : Bool),
      deleteEventHandler (some uid) gid (Except.error msg) cfail db =
        (⟨500, false, some msg⟩, db)) ∧
    (∀ (uid gid : String) (db : List CachedEvent) (cfail : Bool),
      (deleteEventHandler (some uid) gid (Except.ok ()) cfail db).1 = ⟨200, true, none⟩ ∧
      (deleteEventHandler (some uid) gid (Except.ok ()) true db).2 = db) := by
  refine ⟨?_, ?_, ?_, ?_, ?_, ?_⟩
  · intro uid cb db msg cfail h
    simp [createEventHandler, h]
  · intro uid cb db r cfail h
    simp [createEventHandler, h]
  · intro uid gid ub db msg cfail
    simp [patchEventHandler]
  · intro uid gid ub db cfail
    simp [patchEventHandler]
  · intro uid gid db msg cfail
    simp [deleteEventHandler]
  · intro uid gid db cfail
    simp [deleteEventHandler]

/-- C6 witness: a remote failure of the create route at a concrete wellformed
body returns 500 with the message and leaves the cache unchanged. -/
theorem C6_mutation_proxy_witness :
    createEventHandler (some "u") ⟨some "Coffee chat", none, some 540, some 570⟩
      (Except.error "remote down") false [] =
      (⟨500, false, some "remote down"⟩, []) :=
  C6_mutation_proxy.1 "u" ⟨some "Coffee chat", none, some 540, some 570⟩ []
    "remote down" false (by decide)

/-- C7: for an authenticated GET /api/calendar/events request the response
holds exactly the requesting user's cached events whose start time lies in
the given range, ordered ascending by start time. -/
theorem C7_get_events_range :
    ∀ (uid : String) (db : List CachedEvent) (sp ep : Option Nat),
      (getEventsHandler (some uid) db sp ep).status = 200 ∧
      (∀ ev, ev ∈ (getEventsHandler (some uid) db sp ep).events ↔
        (ev ∈ db ∧ ev.user_id = uid ∧
          (∀ a, sp = some a → a ≤ ev.start_at) ∧
          (∀ b, ep = some b → ev.start_at ≤ b))) ∧
      (getEventsHandler (some uid) db sp ep).events.Pairwise
        (fun a b => a.start_at ≤ b.start_at) := by
  intro uid db sp ep
  refine ⟨rfl, ?_, ?_⟩
  · intro ev
    simp only [getEventsHandler, eventsInRange, mem_sortByKey, List.mem_filter,
      Bool.and_eq_true, beq_iff_eq, decide_eq_true_eq]
    constructor
    · rintro ⟨hdb, ⟨hu, hs⟩, he⟩
      refine ⟨hdb, hu, ?_, ?_⟩
      · intro a ha
        rw [ha] at hs
        simpa using hs
      · intro b hb
        rw [hb] at he
        simpa using he
    · rintro ⟨hdb, hu, hs, he⟩
      refine ⟨hdb, ⟨hu, ?_⟩, ?_⟩
      · cases sp with
        | none => rfl
        | some a => simpa using hs a rfl
      · cases ep with
        | none => rfl
        | some b => simpa using he b rfl
  · exact sorted_sortByKey _ _

/-- C7 witness: the ordering component at a concrete two-event cache. -/
theorem C7_get_events_range_witness :
    (getEventsHandler (some "u")
      [⟨"u", "g2", some "B", none, 700, 730, false, false⟩,
       ⟨"u", "g1", some "A", none, 600, 630, false, false⟩] none none).events.Pairwise
      (fun a b => a.start_at ≤ b.start_at) :=
  (C7_get_events_range "u"
    [⟨"u", "g2", some "B", none, 700, 730, false, false⟩,
     ⟨"u", "g1", some "A", none, 600, 630, false, false⟩] none none).2.2

/-- C8: the cache mutations of the PATCH and DELETE routes target rows by
the pair (owner user id, remote event id): every row of another user or
with another remote id is left exactly in place by an update and survives a
delete, a delete removes only matching rows, and an update only rewrites
matching rows. -/
theorem C8_row_identity :
    ∀ (db : List CachedEvent) (uid gid : String) (f : CachedEvent → CachedEvent),
      (∀ (i : Nat) (r : CachedEvent), db[i]? = some r →
        ¬(r.user_id = uid ∧ r.google_event_id = gid) →
        (cacheUpdate db uid gid f)[i]? = some r) ∧
      (∀ r ∈ db, ¬(r.user_id = uid ∧ r.google_event_id = gid) →
        r ∈ cacheDelete db uid gid) ∧
      (∀ r ∈ cacheDelete db uid gid, r ∈ db) ∧
      (∀ r ∈ cacheUpdate db uid gid f,
        r ∈ db ∨ ∃ r0 ∈ db, r0.user_id = uid ∧ r0.google_event_id = gid ∧ r = f r0) := by
  intro db uid gid f
  refine ⟨?_, ?_, ?_, ?_⟩
  · intro i r hget hmatch
    unfold cacheUpdate
    rw [List.getElem?_map, hget]
    simp [hmatch]
  · intro r hr hmatch
    unfold cacheDelete
    rw [List.mem_filter]
    refine ⟨hr, ?_⟩
    simp only [Bool.not_eq_eq_eq_not, Bool.not_true, Bool.and_eq_false_iff, beq_eq_false_iff_ne]
    by_cases hu : r.user_id = uid
    · exact Or.inr (fun hg => hmatch ⟨hu, hg⟩)
    · exact Or.inl hu
  · intro r hr
    exact (List.mem_filter.mp hr).1
  · intro r hr
    unfold cacheUpdate at hr
    rw [List.mem_map] at hr
    obtain ⟨r0, hr0, heq⟩ := hr
    by_cases hm : r0.user_id = uid ∧ r0.google_event_id = gid
    · rw [if_pos hm] at heq
      exact Or.inr ⟨r0, hr0, hm.1, hm.2, heq.symm⟩
    · rw [if_neg hm] at heq
      exact Or.inl (heq ▸ hr0)

/-- C8 witness: another user's row survives a delete issued for the same
remote id. -/
theorem C8_row_identity_witness :
    (⟨"other", "g1", some "A", none, 0, 10, false, false⟩ : CachedEvent) ∈
      cacheDelete [⟨"other", "g1", some "A", none, 0, 10, false, false⟩] "u" "g1" :=
  (C8_row_identity [⟨"other", "g1", some "A", none, 0, 10, false, false⟩] "u" "g1" id).2.1
    ⟨"other", "g1", some "A", none, 0, 10, false, false⟩ (by decide) (by decide)

/-- C9: the create-event route answers 401 to an unauthenticated request,
400 when summary, startTime or endTime is missing, surfaces any remote
failure as a 500 carrying its message, and every response status is one of
200, 400, 401 and 500 — no failure escapes uncaught. -/
theorem C9_create_event_errors :
    ∀ (auth : Option String) (cb : CreateBody) (remote : Except String CreateOk)
      (cfail : Bool) (db : List CachedEvent),
      (auth = none →
        createEventHandler auth cb remote cfail db =
          (⟨401, false, some "Unauthorized"⟩, db)) ∧
      (∀ uid, auth = some uid → missingFields cb = true →
        (createEventHandler auth cb remote cfail db).1 =
          ⟨400, false, some "Missing required fields: summary, startTime, endTime"⟩) ∧
      (∀ uid msg, auth = some uid → missingFields cb = false →
        remote = Except.error msg →
        (createEventHandler auth cb remote cfail db).1 = ⟨500, false, some msg⟩ ∧
        (createEventHandler auth cb remote cfail db).2 = db) ∧
      ((createEventHandler auth cb remote cfail db).1.status = 200 ∨
       (createEventHandler auth cb remote cfail db).1.status = 400 ∨
       (createEventHandler auth cb remote cfail db).1.status = 401 ∨
       (createEventHandler auth cb remote cfail db).1.status = 500) := by
  intro auth cb remote cfail db
  refine ⟨?_, ?_, ?_, ?_⟩
  · rintro rfl
    rfl
  · rintro uid rfl h
    simp [createEventHandler, h]
  · rintro uid msg rfl h rfl
    simp [createEventHandler, h]
  · cases auth with
    | none => simp [createEventHandler]
    | some uid =>
        by_cases h : missingFields cb
        · simp [createEventHandler, h]
        · cases remote with
          | error msg => simp [createEventHandler, h]
          | ok r => simp [createEventHandler, h]

/-- C9 witness: an unauthenticated concrete request is answered with 401. -/
theorem C9_create_event_errors_witness :
    createEventHandler none ⟨some "T", none, some 540, some 570⟩
      (Except.ok ⟨"gid"⟩) false [] = (⟨401, false, some "Unauthorized"⟩, []) :=
  (C9_create_event_errors none ⟨some "T", none, some 540, some 570⟩
    (Except.ok ⟨"gid"⟩) false []).1 rfl

/-- C10: GET /api/gmail/templates always answers 200 with the six built-in
presets; an unauthenticated caller or a storage failure yields an empty
custom-templates list, and on success the response holds exactly the
requesting user's custom templates ordered ascending by sort_order. -/
theorem C10_templates_never_error :
    ∀ (auth : Option String) (db : List EmailTemplate) (dbFails : Bool),
      (templatesGET auth db dbFails).status = 200 ∧
      (templatesGET auth db dbFails).presets = PRESET_TEMPLATES ∧
      PRESET_TEMPLATES.length = 6 ∧
      (auth = none → (templatesGET auth db dbFails).templates = []) ∧
      (dbFails = true → (templatesGET auth db dbFails).templates = []) ∧
      (∀ uid, auth = some uid → dbFails = false →
        (∀ tp, tp ∈ (templatesGET auth db dbFails).templates ↔
          tp ∈ db ∧ tp.user_id = uid) ∧
        (templatesGET auth db dbFails).templates.Pairwise
          (fun a b => a.sort_order ≤ b.sort_order)) := by
  intro auth db dbFails
  refine ⟨?_, ?_, rfl, ?_, ?_, ?_⟩
  · cases auth with
    | none => rfl
    | some uid => by_cases h : dbFails <;> simp [templatesGET, h]
  · cases auth with
    | none => rfl
    | some uid => by_cases h : dbFails <;> simp [templatesGET, h]
  · rintro rfl
    rfl
  · rintro rfl
    cases auth <;> rfl
  · rintro uid rfl rfl
    constructor
    · intro tp
      simp [templatesGET, mem_sortByKey, List.mem_filter]
    · exact sorted_sortByKey _ _

/-- C10 witness: a storage failure at a concrete request still yields 200
with empty custom templates and the six presets. -/
theorem C10_templates_never_error_witness :
    (templatesGET (some "u") [] true).status = 200 ∧
    (templatesGET (some "u") [] true).templates = [] ∧
    PRESET_TEMPLATES.length = 6 := by
  obtain ⟨h1, _, h3, _, h5, _⟩ := C10_templates_never_error (some "u") [] true
  exact ⟨h1, h5 rfl, h3⟩

end CareerVine
